import Mathlib

/-!
Shallow embedding of the job-portal repository's access-control and
statistics layer, and of the paginated / bulk-update / job-application
route handlers, together with proofs of the spec claims about them.

Sources embedded (paths refer to the repository):
* admin_backend middleware (protect / checkPermission / optionalAuth)
* admin_backend/utils/generateToken.js and the jsonwebtoken verify used
  by the middleware
* admin_backend/models (adminSchema: hasPermission, comparePassword)
* admin_backend/routes/auth.js (POST /login)
* admin_backend/routes/dashboard.js (GET /stats)
* admin category routes (list pagination and PUT /bulk/update)
* job_portal_backend/routes/users.js (apply handler) and
  job_portal_backend/models/Application.js (unique (job, applicant) index)
-/

namespace JobPortal

/-! ## Admin data model

`adminSchema` fields used by the auth layer.  `AdminView` is the shape of
an admin document after a `.select('-password')` projection: it has no
password field at all. -/

structure AdminView where
  id : Nat
  firstName : String
  lastName : String
  email : String
  role : String
  permissions : List String
  isActive : Bool
  lastLogin : Option Nat
  profileImage : Option String
deriving DecidableEq

structure Admin where
  id : Nat
  firstName : String
  lastName : String
  email : String
  /-- bcrypt hash stored in the `password` field (schema: required). -/
  password : String
  role : String
  permissions : List String
  isActive : Bool
  lastLogin : Option Nat
  profileImage : Option String
deriving DecidableEq

/-- The `.select('-password')` projection used by the middleware before
attaching the admin to the request. -/
def Admin.view (a : Admin) : AdminView :=
  ⟨a.id, a.firstName, a.lastName, a.email, a.role, a.permissions,
   a.isActive, a.lastLogin, a.profileImage⟩

/-- `adminSchema.methods.hasPermission`:
`this.permissions.includes(permission) || this.role === 'super_admin'`. -/
def AdminView.hasPermission (a : AdminView) (p : String) : Bool :=
  a.permissions.contains p || a.role == "super_admin"

/-! ## JWT model

`generateToken.js` signs `{ id }` with `config.JWT_SECRET` and
`expiresIn: config.JWT_EXPIRE` (default `'7d'`).  jsonwebtoken's `verify`
throws `JsonWebTokenError` on a malformed token or bad signature and
`TokenExpiredError` when the clock has reached the embedded `exp`.
A token signed by a different signer may lack the `id` claim, hence the
`Option Nat` payload. -/

def jwtSecret : String := "admin_super_secret_jwt_key_change_this_in_production"

/-- `JWT_EXPIRE = '7d'` in seconds. -/
def jwtExpireSeconds : Nat := 7 * 24 * 60 * 60

inductive Jwt where
  | signed (payloadId : Option Nat) (exp : Nat) (secret : String)
  | malformed (raw : String)
deriving DecidableEq

inductive JwtError where
  | TokenExpiredError
  | JsonWebTokenError
deriving DecidableEq

/-- `generateToken(id)` at clock time `now` (seconds). -/
def generateToken (id now : Nat) : Jwt :=
  .signed (some id) (now + jwtExpireSeconds) jwtSecret

/-- `jwt.verify(token, secret)` at clock time `now`: signature first, then
expiry (expired iff `now ≥ exp`); returns the decoded payload's `id`. -/
def jwtVerify (t : Jwt) (secret : String) (now : Nat) :
    Except JwtError (Option Nat) :=
  match t with
  | .malformed _ => .error .JsonWebTokenError
  | .signed pid exp s =>
    if s ≠ secret then .error .JsonWebTokenError
    else if exp ≤ now then .error .TokenExpiredError
    else .ok pid

/-! ## Middleware

The `Authorization` header as the middleware's string casework sees it:
absent or not starting with `Bearer` (`missing`), `Bearer` with nothing
after `split(' ')[1]` (`bearerEmpty`), or a bearer token. -/

inductive Header where
  | missing
  | bearerEmpty
  | bearer (t : Jwt)
deriving DecidableEq

/-- Outcome of an express middleware: an early `res.status(s).json({message})`
response, or `next()` with the request's `req.admin` slot. -/
inductive MwResult where
  | reject (status : Nat) (message : String)
  | next (admin : Option AdminView)
deriving DecidableEq

/-- `Admin.findById` over the admin collection. -/
def findById (store : List Admin) (i : Nat) : Option Admin :=
  store.find? (fun a => a.id == i)

/-- The `protect` middleware, branch for branch. -/
def protect (h : Header) (secret : String) (now : Nat) (store : List Admin) :
    MwResult :=
  match h with
  | .missing => .reject 401 "Authorization header with Bearer token is required"
  | .bearerEmpty => .reject 401 "Access token is required"
  | .bearer t =>
    match jwtVerify t secret now with
    | .error .JsonWebTokenError => .reject 401 "Invalid token"
    | .error .TokenExpiredError => .reject 401 "Token has expired"
    | .ok none => .reject 401 "Invalid token format"
    | .ok (some i) =>
      match findById store i with
      | none => .reject 401 "Admin not found"
      | some a =>
        if a.isActive then .next (some a.view)
        else .reject 401 "Admin account is deactivated"

/-- The `checkPermission(permission)` middleware. -/
def checkPermission (p : String) (reqAdmin : Option AdminView) : MwResult :=
  match reqAdmin with
  | none => .reject 401 "Authentication required"
  | some a =>
    if a.hasPermission p then .next (some a)
    else .reject 403 ("Permission " ++ p ++ " is required to access this route")

/-- The `optionalAuth` middleware: every path ends in `next()`; the catch
block swallows verification errors. -/
def optionalAuth (h : Header) (secret : String) (now : Nat)
    (store : List Admin) : MwResult :=
  match h with
  | .missing => .next none
  | .bearerEmpty => .next none
  | .bearer t =>
    match jwtVerify t secret now with
    | .error _ => .next none
    | .ok oid =>
      match oid.bind (findById store) with
      | some a => if a.isActive then .next (some a.view) else .next none
      | none => .next none

end JobPortal

namespace JobPortal

/-! ## Helper facts about the middleware definitions -/

theorem findById_mem {store : List Admin} {i : Nat} {a : Admin}
    (h : findById store i = some a) : a ∈ store ∧ a.id = i := by
  have hm := List.mem_of_find?_eq_some h
  have hp := List.find?_some h
  simp only [beq_iff_eq] at hp
  exact ⟨hm, hp⟩

end JobPortal

namespace JobPortal

/-! ## C1: the protect gate's case analysis -/

/-- C1: the `protect` gate performs exactly the claimed case analysis:
every rejection is HTTP 401, and a request proceeds to the handler iff a
bearer token is present, verifies to a payload carrying an id, that id
resolves to a stored admin, and that admin has `isActive = true`; the
attached principal is the resolved admin (password projected away). -/
theorem protect_case_analysis (h : Header) (secret : String) (now : Nat)
    (store : List Admin) :
    (∀ s m, protect h secret now store = .reject s m → s = 401) ∧
    (∀ v, protect h secret now store = .next v ↔
      ∃ t i a, h = .bearer t ∧ jwtVerify t secret now = .ok (some i) ∧
        findById store i = some a ∧ a.isActive = true ∧ v = some a.view) := by
  constructor
  · intro s m hr
    cases h with
    | missing => simp [protect] at hr; omega
    | bearerEmpty => simp [protect] at hr; omega
    | bearer t =>
      simp only [protect] at hr
      rcases hv : jwtVerify t secret now with e | oid
      · cases e <;> simp [hv] at hr <;> omega
      · cases oid with
        | none => simp [hv] at hr; omega
        | some i =>
          simp only [hv] at hr
          rcases hf : findById store i with _ | a
          · simp [hf] at hr; omega
          · simp only [hf] at hr
            by_cases ha : a.isActive <;> simp [ha] at hr
            omega
  · intro v
    constructor
    · intro hn
      cases h with
      | missing => simp [protect] at hn
      | bearerEmpty => simp [protect] at hn
      | bearer t =>
        simp only [protect] at hn
        rcases hv : jwtVerify t secret now with e | oid
        · cases e <;> simp [hv] at hn
        · cases oid with
          | none => simp [hv] at hn
          | some i =>
            simp only [hv] at hn
            rcases hf : findById store i with _ | a
            · simp [hf] at hn
            · simp only [hf] at hn
              by_cases ha : a.isActive <;> simp [ha] at hn
              exact ⟨t, i, a, rfl, hv, hf, ha, hn.symm⟩
    · rintro ⟨t, i, a, rfl, hv, hf, ha, rfl⟩
      simp [protect, hv, hf, ha]

/-- Witness for C1: a concrete valid token on a concrete store proceeds,
attaching exactly the stored admin's passwordless view. -/
theorem protect_case_analysis_witness :
    protect (Header.bearer (generateToken 7 0)) jwtSecret 3
      [⟨7, "Admin", "User", "admin@jobportal.com", "h", "super_admin",
        ["manage_users"], true, none, none⟩] =
    MwResult.next (some (Admin.view ⟨7, "Admin", "User", "admin@jobportal.com",
      "h", "super_admin", ["manage_users"], true, none, none⟩)) :=
  ((protect_case_analysis _ _ _ _).2 _).mpr
    ⟨generateToken 7 0, 7, _, rfl, rfl, by decide, by decide, rfl⟩

end JobPortal

namespace JobPortal

/-! ## C2: super_admin bypasses the stored permission set -/

/-- C2: a principal whose role is `super_admin` passes
`checkPermission p` for every permission string `p`, even when `p` is not
in its stored permission list; for any other role the check passes iff
`p` is in the stored permission list. -/
theorem super_admin_permission (a : AdminView) (p : String) :
    (a.role = "super_admin" →
      a.hasPermission p = true ∧ checkPermission p (some a) = .next (some a)) ∧
    (a.role ≠ "super_admin" →
      (checkPermission p (some a) = .next (some a) ↔ p ∈ a.permissions)) := by
  constructor
  · intro hr
    have hp : a.hasPermission p = true := by
      simp [AdminView.hasPermission, hr]
    exact ⟨hp, by simp [checkPermission, hp]⟩
  · intro hr
    have hb : (a.role == "super_admin") = false := by
      simpa using hr
    constructor
    · intro hc
      by_cases hp : a.hasPermission p
      · simp only [AdminView.hasPermission, hb, Bool.or_false] at hp
        exact List.mem_of_elem_eq_true hp
      · simp [checkPermission, hp] at hc
    · intro hm
      have hp : a.hasPermission p = true := by
        simp only [AdminView.hasPermission, Bool.or_eq_true]
        exact Or.inl (List.elem_eq_true_of_mem hm)
      simp [checkPermission, hp]

/-- Witness for C2: a super_admin with an empty stored permission list still
passes `checkPermission "manage_users"`, while a moderator passes iff the
permission is stored (here: it is, for "manage_faqs"). -/
theorem super_admin_permission_witness :
    checkPermission "manage_users"
      (some ⟨1, "A", "B", "a@b.com", "super_admin", [], true, none, none⟩) =
      MwResult.next
        (some ⟨1, "A", "B", "a@b.com", "super_admin", [], true, none, none⟩) ∧
    checkPermission "manage_faqs"
      (some ⟨2, "C", "D", "c@d.com", "moderator", ["manage_faqs"], true,
        none, none⟩) =
      MwResult.next
        (some ⟨2, "C", "D", "c@d.com", "moderator", ["manage_faqs"], true,
          none, none⟩) :=
  ⟨((super_admin_permission _ _).1 rfl).2,
   ((super_admin_permission _ _).2 (by decide)).mpr (by decide)⟩

end JobPortal

namespace JobPortal

/-! ## C4: verify ∘ issue and the TTL -/

/-- C4: for every principal id, a token produced by `generateToken` at time
`now` verifies to that id at any time `t` strictly before the TTL has
elapsed, and fails with `TokenExpiredError` at any time from `now + TTL`
on (jsonwebtoken treats `now ≥ exp` as expired, which covers every time
after the TTL has elapsed). -/
theorem token_ttl_roundtrip (id now t : Nat) :
    (t < now + jwtExpireSeconds →
      jwtVerify (generateToken id now) jwtSecret t = .ok (some id)) ∧
    (now + jwtExpireSeconds ≤ t →
      jwtVerify (generateToken id now) jwtSecret t =
        .error .TokenExpiredError) := by
  constructor
  · intro hlt
    simp [generateToken, jwtVerify, Nat.not_le_of_lt hlt]
  · intro hle
    simp [generateToken, jwtVerify, hle]

/-- Witness for C4: a token issued at time 0 for id 42 verifies one second
before the 7-day TTL and is expired at exactly 7 days. -/
theorem token_ttl_roundtrip_witness :
    jwtVerify (generateToken 42 0) jwtSecret 604799 = .ok (some 42) ∧
    jwtVerify (generateToken 42 0) jwtSecret 604800 =
      .error .TokenExpiredError :=
  ⟨(token_ttl_roundtrip 42 0 604799).1 (by decide),
   (token_ttl_roundtrip 42 0 604800).2 (by decide)⟩

end JobPortal

namespace JobPortal

/-! ## C9: optionalAuth never rejects -/

/-- C9: `optionalAuth` always passes control to the next handler (it never
produces a rejection response), and it attaches a principal iff the bearer
token verifies under the shared secret to a payload id that resolves to a
stored admin with `isActive = true`; the attached principal is that
admin's passwordless view. -/
theorem optionalAuth_never_rejects (h : Header) (secret : String) (now : Nat)
    (store : List Admin) :
    (∃ o, optionalAuth h secret now store = .next o) ∧
    (∀ v, optionalAuth h secret now store = .next (some v) ↔
      ∃ t i a, h = .bearer t ∧ jwtVerify t secret now = .ok (some i) ∧
        findById store i = some a ∧ a.isActive = true ∧ v = a.view) := by
  constructor
  · cases h with
    | missing => exact ⟨none, rfl⟩
    | bearerEmpty => exact ⟨none, rfl⟩
    | bearer t =>
      simp only [optionalAuth]
      rcases hv : jwtVerify t secret now with e | oid
      · exact ⟨none, rfl⟩
      · cases oid with
        | none => exact ⟨none, rfl⟩
        | some i =>
          simp only [Option.bind]
          rcases hf : findById store i with _ | a
          · exact ⟨none, rfl⟩
          · by_cases ha : a.isActive
            · exact ⟨some a.view, by simp [ha]⟩
            · exact ⟨none, by simp [ha]⟩
  · intro v
    constructor
    · intro hn
      cases h with
      | missing => simp [optionalAuth] at hn
      | bearerEmpty => simp [optionalAuth] at hn
      | bearer t =>
        simp only [optionalAuth] at hn
        rcases hv : jwtVerify t secret now with e | oid
        · simp [hv] at hn
        · cases oid with
          | none => simp [hv, Option.bind] at hn
          | some i =>
            simp only [hv, Option.bind] at hn
            rcases hf : findById store i with _ | a
            · simp [hf] at hn
            · simp only [hf] at hn
              by_cases ha : a.isActive <;> simp [ha] at hn
              exact ⟨t, i, a, rfl, hv, hf, ha, hn.symm⟩
    · rintro ⟨t, i, a, rfl, hv, hf, ha, rfl⟩
      simp [optionalAuth, hv, Option.bind, hf, ha]

/-- Witness for C9: an expired token makes `optionalAuth` continue with no
principal attached, and a valid token for an active stored admin attaches
that admin's view. -/
theorem optionalAuth_never_rejects_witness :
    optionalAuth (Header.bearer (generateToken 7 0)) jwtSecret 700000
      [⟨7, "A", "B", "a@b.com", "h", "admin", [], true, none, none⟩] =
      MwResult.next none ∧
    optionalAuth (Header.bearer (generateToken 7 0)) jwtSecret 3
      [⟨7, "A", "B", "a@b.com", "h", "admin", [], true, none, none⟩] =
      MwResult.next (some (Admin.view
        ⟨7, "A", "B", "a@b.com", "h", "admin", [], true, none, none⟩)) :=
  by
  refine ⟨?_, ?_⟩
  · rcases (optionalAuth_never_rejects (Header.bearer (generateToken 7 0))
      jwtSecret 700000
      [⟨7, "A", "B", "a@b.com", "h", "admin", [], true, none, none⟩]).1
      with ⟨o, ho⟩
    cases o with
    | none => exact ho
    | some v =>
      have hmp := ((optionalAuth_never_rejects
        (Header.bearer (generateToken 7 0)) jwtSecret 700000
        [⟨7, "A", "B", "a@b.com", "h", "admin", [], true, none, none⟩]).2
          v).mp ho
      rcases hmp with ⟨t, i, a, ht, hv, -, -, -⟩
      cases ht
      have hex : jwtVerify (generateToken 7 0) jwtSecret 700000 =
          Except.error JwtError.TokenExpiredError :=
        (token_ttl_roundtrip 7 0 700000).2 (by decide)
      rw [hex] at hv
      cases hv
  · exact ((optionalAuth_never_rejects _ _ _ _).2 _).mpr
      ⟨generateToken 7 0, 7, _, rfl, rfl, by decide, by decide, rfl⟩

end JobPortal

namespace JobPortal

/-! ## Login (POST /api/admin/auth/login)

The handler (post express-validator): `Admin.findOne({ email })` — the
schema's `lowercase: true` setter lowercases both the stored email and the
query value, so lookup is by lowercased email — then the three checks in
source order: not found → 401 'Invalid credentials'; `!admin.isActive` →
401 'Admin account is deactivated'; `comparePassword` false →
401 'Invalid credentials'; otherwise `lastLogin` is saved and a token plus
an explicit field-list body is returned.  `bcmp hash pw` abstracts
`bcrypt.compare(pw, hash)`. -/

structure LoginBody where
  id : Nat
  firstName : String
  lastName : String
  email : String
  role : String
  permissions : List String
  profileImage : Option String
  fullName : String
deriving DecidableEq

/-- The explicit field list of the success response's `admin` object
(`fullName` is the schema virtual `firstName + ' ' + lastName`). -/
def loginBodyOf (v : AdminView) : LoginBody :=
  ⟨v.id, v.firstName, v.lastName, v.email, v.role, v.permissions,
   v.profileImage, v.firstName ++ " " ++ v.lastName⟩

inductive LoginResult where
  | rejected (status : Nat) (message : String)
  | authenticated (token : Jwt) (body : LoginBody)
deriving DecidableEq

/-- Character-wise lowercasing (the effect of the schema's
`lowercase: true` setter, JS `toLowerCase`, on ASCII emails). -/
def lowerString (s : String) : String := String.mk (s.data.map Char.toLower)

/-- `Admin.findOne({ email })` with the schema's lowercase setter applied
to the query value. -/
def findOneByEmail (store : List Admin) (email : String) : Option Admin :=
  store.find? (fun a => a.email == lowerString email)

/-- The login handler; returns the response and the store after the
`lastLogin` save. -/
def login (store : List Admin) (bcmp : String → String → Bool)
    (email pw : String) (now : Nat) : LoginResult × List Admin :=
  match findOneByEmail store email with
  | none => (.rejected 401 "Invalid credentials", store)
  | some a =>
    if !a.isActive then (.rejected 401 "Admin account is deactivated", store)
    else if !bcmp a.password pw then (.rejected 401 "Invalid credentials", store)
    else
      (.authenticated (generateToken a.id now) (loginBodyOf a.view),
       store.map (fun b => if b.id == a.id then { b with lastLogin := some now }
                           else b))

/-- Schema invariant `unique: true` on email. -/
def emailsUnique : List Admin → Bool
  | [] => true
  | a :: t => t.all (fun b => a.email != b.email) && emailsUnique t

theorem findOneByEmail_mem {store : List Admin} {e : String} {a : Admin}
    (h : findOneByEmail store e = some a) :
    a ∈ store ∧ a.email = lowerString e := by
  have hm := List.mem_of_find?_eq_some h
  have hp := List.find?_some h
  simp only [beq_iff_eq] at hp
  exact ⟨hm, hp⟩

theorem findOneByEmail_of_mem {store : List Admin} {e : String} {a : Admin}
    (hu : emailsUnique store = true) (hm : a ∈ store)
    (he : a.email = lowerString e) : findOneByEmail store e = some a := by
  induction store with
  | nil => cases hm
  | cons b t ih =>
    simp only [emailsUnique, Bool.and_eq_true, List.all_eq_true] at hu
    rcases List.mem_cons.mp hm with rfl | hmt
    · simp [findOneByEmail, List.find?, he]
    · have hne : b.email ≠ a.email := by
        have := hu.1 a hmt
        simpa using this
      have hbe : (b.email == lowerString e) = false := by
        rw [← he]
        exact beq_eq_false_iff_ne.mpr hne
      simp only [findOneByEmail, List.find?, hbe]
      exact ih hu.2 hmt

end JobPortal

namespace JobPortal

/-! ## C3: login outcome and (non-)uniform rejection -/

/-- Counterexample for C3: a stored admin with matching case-insensitive
email and matching password but `isActive = false` is rejected with the
message `'Admin account is deactivated'`, which differs from the uniform
`'Invalid credentials'` the claim asserts for every failed predicate. -/
theorem login_uniform_error_counterexample :
    (login [⟨3, "In", "Active", "a@b.com", "secret123", "admin", [], false,
      none, none⟩] (fun h p => h == p) "A@B.com" "secret123" 0).1 =
      LoginResult.rejected 401 "Admin account is deactivated" ∧
    "Admin account is deactivated" ≠ "Invalid credentials" := by
  constructor
  · decide
  · decide

/-- C3 (amended): under the schema invariants (stored emails lowercased and
unique), login authenticates iff an admin with that case-insensitive email
exists, is active, and the stored hash matches the password.  Every
rejection is HTTP 401; a missing email and a wrong password both yield the
uniform `'Invalid credentials'` message, but an existing-yet-inactive
admin yields the distinct message `'Admin account is deactivated'`. -/
theorem login_amended (store : List Admin) (bcmp : String → String → Bool)
    (email pw : String) (now : Nat)
    (hu : emailsUnique store = true) :
    ((∃ tok body st, login store bcmp email pw now =
        (.authenticated tok body, st)) ↔
      ∃ a, a ∈ store ∧ a.email = lowerString email ∧ a.isActive = true ∧
        bcmp a.password pw = true) ∧
    (∀ s m st, login store bcmp email pw now = (.rejected s m, st) →
      s = 401 ∧ st = store) ∧
    (findOneByEmail store email = none →
      (login store bcmp email pw now).1 =
        .rejected 401 "Invalid credentials") ∧
    (∀ a, findOneByEmail store email = some a → a.isActive = false →
      (login store bcmp email pw now).1 =
        .rejected 401 "Admin account is deactivated") ∧
    (∀ a, findOneByEmail store email = some a → a.isActive = true →
      bcmp a.password pw = false →
      (login store bcmp email pw now).1 =
        .rejected 401 "Invalid credentials") := by
  refine ⟨?_, ?_, ?_, ?_, ?_⟩
  · constructor
    · rintro ⟨tok, body, st, hl⟩
      rcases hf : findOneByEmail store email with _ | a
      · simp [login, hf] at hl
      · rcases findOneByEmail_mem hf with ⟨hm, he⟩
        by_cases ha : a.isActive
        · by_cases hc : bcmp a.password pw
          · exact ⟨a, hm, he, ha, hc⟩
          · simp [login, hf, ha, hc] at hl
        · simp [login, hf, ha] at hl
    · rintro ⟨a, hm, he, ha, hc⟩
      have hf := findOneByEmail_of_mem hu hm he
      refine ⟨generateToken a.id now, loginBodyOf a.view,
        store.map (fun b => if b.id == a.id
          then { b with lastLogin := some now } else b), ?_⟩
      simp [login, hf, ha, hc]
  · intro s m st hl
    rcases hf : findOneByEmail store email with _ | a
    · simp only [login, hf, Prod.mk.injEq, LoginResult.rejected.injEq] at hl
      exact ⟨hl.1.1.symm, hl.2.symm⟩
    · simp only [login, hf] at hl
      by_cases ha : a.isActive
      · by_cases hc : bcmp a.password pw
        · simp [ha, hc] at hl
        · simp only [ha, hc, Bool.not_true, Bool.not_false, if_false, if_true,
            Bool.false_eq_true, Prod.mk.injEq, LoginResult.rejected.injEq]
            at hl
          exact ⟨hl.1.1.symm, hl.2.symm⟩
      · simp only [Bool.not_eq_true'] at ha
        simp only [ha, Bool.not_false, if_true, Prod.mk.injEq,
          LoginResult.rejected.injEq] at hl
        exact ⟨hl.1.1.symm, hl.2.symm⟩
  · intro hf
    simp [login, hf]
  · intro a hf ha
    simp [login, hf, ha]
  · intro a hf ha hc
    simp [login, hf, ha, hc]

/-- Witness for C3 (amended): on a concrete one-admin store, login with the
mixed-case email and right password authenticates, and with a wrong
password it is rejected with `'Invalid credentials'`. -/
theorem login_amended_witness :
    (∃ tok body st,
      login [⟨3, "Ad", "Min", "a@b.com", "secret123", "admin", [], true,
        none, none⟩] (fun h p => h == p) "A@B.com" "secret123" 0 =
        (.authenticated tok body, st)) ∧
    (login [⟨3, "Ad", "Min", "a@b.com", "secret123", "admin", [], true,
        none, none⟩] (fun h p => h == p) "A@B.com" "wrongpass" 0).1 =
      LoginResult.rejected 401 "Invalid credentials" := by
  constructor
  · exact (login_amended
      [⟨3, "Ad", "Min", "a@b.com", "secret123", "admin", [], true, none,
        none⟩] (fun h p => h == p) "A@B.com" "secret123" 0 (by decide)).1.mpr
      ⟨⟨3, "Ad", "Min", "a@b.com", "secret123", "admin", [], true, none,
        none⟩, List.mem_singleton.mpr rfl, by decide, rfl, by decide⟩
  · exact (login_amended
      [⟨3, "Ad", "Min", "a@b.com", "secret123", "admin", [], true, none,
        none⟩] (fun h p => h == p) "A@B.com" "wrongpass" 0
      (by decide)).2.2.2.2
      ⟨3, "Ad", "Min", "a@b.com", "secret123", "admin", [], true, none,
        none⟩ (by decide) rfl (by decide)

end JobPortal

namespace JobPortal

/-! ## Category list pagination (GET /api/admin/categories)

The handler computes `skip = (page-1)*limit`, runs
`find(filter).sort(sort).skip(skip).limit(limit)` together with
`countDocuments(filter)`, and reports
`totalPages = Math.ceil(total/limit)`, `hasNextPage = page < totalPages`,
`hasPrevPage = page > 1`.  The embedding operates on the filtered and
sorted matching sequence (`matching`), which is exactly what the query
pipeline pages through; `total = matching.length` is what
`countDocuments` returns. -/

structure Category where
  id : Nat
  name : String
  isActive : Bool
  isFeatured : Bool
  sortOrder : Nat
deriving DecidableEq

structure PaginationMeta where
  currentPage : Nat
  totalPages : Nat
  totalItems : Nat
  itemsPerPage : Nat
  hasNextPage : Bool
  hasPrevPage : Bool
deriving DecidableEq

/-- The paginated category list response: page of documents plus the
pagination metadata object. -/
def listCategories (matching : List Category) (page limit : Nat) :
    List Category × PaginationMeta :=
  let skip := (page - 1) * limit
  let cats := (matching.drop skip).take limit
  let total := matching.length
  let pages := (total + limit - 1) / limit
  (cats,
   ⟨page, pages, total, limit, decide (page < pages), decide (1 < page)⟩)

end JobPortal

namespace JobPortal

/-! ## C5: pagination arithmetic -/

/-- C5: for `1 ≤ L ≤ 100` and `P ≥ 1` over `N` matching documents, the
returned page holds exactly `min L (N - L*(P-1))` items (Nat subtraction
is the claim's `max(0, ·)`), and the metadata reports
`totalPages = ⌈N/L⌉`, `totalItems = N`, `currentPage = P`. -/
theorem pagination_spec (matching : List Category) (L P N : Nat)
    (hL1 : 1 ≤ L) (hL2 : L ≤ 100) (hP : 1 ≤ P)
    (hN : matching.length = N) :
    (listCategories matching P L).1.length = min L (N - L * (P - 1)) ∧
    (listCategories matching P L).2.totalPages = N ⌈/⌉ L ∧
    (listCategories matching P L).2.totalItems = N ∧
    (listCategories matching P L).2.currentPage = P ∧
    (listCategories matching P L).2.itemsPerPage = L := by
  refine ⟨?_, ?_, ?_, ?_, ?_⟩
  · simp [listCategories, List.length_take, List.length_drop, hN,
      Nat.mul_comm]
  · simp [listCategories, hN, Nat.ceilDiv_eq_add_pred_div]
  · simp [listCategories, hN]
  · simp [listCategories]
  · simp [listCategories]

/-- Witness for C5: 7 matching documents, limit 3, page 2: the page holds
3 documents and the metadata reads totalPages 3, totalItems 7. -/
theorem pagination_spec_witness :
    (listCategories
      [⟨1, "a", true, false, 0⟩, ⟨2, "b", true, false, 1⟩,
       ⟨3, "c", true, false, 2⟩, ⟨4, "d", true, false, 3⟩,
       ⟨5, "e", true, false, 4⟩, ⟨6, "f", true, false, 5⟩,
       ⟨7, "g", true, false, 6⟩] 2 3).1.length = min 3 (7 - 3 * (2 - 1)) ∧
    (listCategories
      [⟨1, "a", true, false, 0⟩, ⟨2, "b", true, false, 1⟩,
       ⟨3, "c", true, false, 2⟩, ⟨4, "d", true, false, 3⟩,
       ⟨5, "e", true, false, 4⟩, ⟨6, "f", true, false, 5⟩,
       ⟨7, "g", true, false, 6⟩] 2 3).2.totalPages = 7 ⌈/⌉ 3 := by
  have h := pagination_spec
    [⟨1, "a", true, false, 0⟩, ⟨2, "b", true, false, 1⟩,
     ⟨3, "c", true, false, 2⟩, ⟨4, "d", true, false, 3⟩,
     ⟨5, "e", true, false, 4⟩, ⟨6, "f", true, false, 5⟩,
     ⟨7, "g", true, false, 6⟩] 3 2 7 (by decide) (by decide) (by decide) rfl
  exact ⟨h.1, h.2.1⟩

end JobPortal

namespace JobPortal

/-! ## Job application (POST apply, job_portal_backend/routes/users.js)

Handler order: find the job (404), `!job.isActive` (400), deadline passed
(400), `Application.findOne({job, applicant})` pre-check (400 'You have
already applied for this job'), then `Application.create`.  The
`applicationSchema.index({job:1, applicant:1}, {unique:true})` constraint
is checked by the storage layer against the state at write time, which —
under a concurrent duplicate apply — may contain documents (`raceApps`)
inserted between the handler's read and its write.  The handler's catch
block has no `error.code === 11000` branch: every thrown error, including
a duplicate-key error, becomes the generic 500 'Server error'. -/

structure JobDoc where
  id : Nat
  company : Nat
  isActive : Bool
  applicationDeadline : Nat
deriving DecidableEq

structure AppDoc where
  id : Nat
  job : Nat
  applicant : Nat
  company : Nat
deriving DecidableEq

/-- An HTTP response abstracted to status and message. -/
structure Resp where
  status : Nat
  message : String
deriving DecidableEq

/-- Is there an application for `(j, u)`? (`Application.findOne`, and the
unique-index predicate.) -/
def hasApplication (apps : List AppDoc) (j u : Nat) : Bool :=
  apps.any (fun a => a.job == j && a.applicant == u)

/-- Number of stored applications for the pair `(j, u)`. -/
def countPair (apps : List AppDoc) (j u : Nat) : Nat :=
  (apps.filter (fun a => a.job == j && a.applicant == u)).length

/-- The apply handler.  `apps` is the application collection as the
handler's `findOne` pre-check reads it; `raceApps` are documents inserted
concurrently before the handler's `create` executes, so the unique index
fires against `apps ++ raceApps`.  Returns the response and the final
application collection. -/
def applyForJob (jobs : List JobDoc) (apps raceApps : List AppDoc)
    (jobId uid now newId : Nat) : Resp × List AppDoc :=
  let writeState := apps ++ raceApps
  match jobs.find? (fun j => j.id == jobId) with
  | none => (⟨404, "Job not found"⟩, writeState)
  | some job =>
    if !job.isActive then
      (⟨400, "This job is no longer accepting applications"⟩, writeState)
    else if job.applicationDeadline < now then
      (⟨400, "Application deadline has passed"⟩, writeState)
    else if hasApplication apps jobId uid then
      (⟨400, "You have already applied for this job"⟩, writeState)
    else if hasApplication writeState jobId uid then
      (⟨500, "Server error"⟩, writeState)
    else
      (⟨201, "Application submitted successfully"⟩,
       writeState ++ [⟨newId, jobId, uid, job.company⟩])

end JobPortal

namespace JobPortal

/-! ## C6: duplicate applications -/

/-- Counterexample for C6: with an active job, an empty collection at
pre-check time, and a concurrently inserted application for the same
`(job, applicant)` pair, the duplicate is only caught by the storage
layer's unique index, and the user receives the generic 500
'Server error' — not an 'already applied' conflict error as the claim
requires. -/
theorem apply_duplicate_counterexample :
    (applyForJob [⟨1, 10, true, 100⟩] [] [⟨5, 1, 2, 10⟩] 1 2 0 9).1 =
      Resp.mk 500 "Server error" ∧
    Resp.mk 500 "Server error" ≠
      Resp.mk 400 "You have already applied for this job" := by
  constructor
  · decide
  · decide

/-- C6 (amended): when the handler's pre-check sees the duplicate, the
request fails with 400 'You have already applied for this job' and the
collection is unchanged; when the duplicate is only present in the
write-time state (storage-layer duplicate-key from the race), the request
fails — as the generic 500 'Server error', untranslated — and no document
is inserted; in both cases, and in the success case, at most one
application per `(job, applicant)` pair ever exists if this held before. -/
theorem apply_amended (jobs : List JobDoc) (apps raceApps : List AppDoc)
    (jobId uid now newId : Nat) (job : JobDoc)
    (hfind : jobs.find? (fun j => j.id == jobId) = some job)
    (hact : job.isActive = true)
    (hdl : ¬ job.applicationDeadline < now) :
    (hasApplication apps jobId uid = true →
      applyForJob jobs apps raceApps jobId uid now newId =
        (⟨400, "You have already applied for this job"⟩, apps ++ raceApps)) ∧
    (hasApplication apps jobId uid = false →
      hasApplication raceApps jobId uid = true →
      applyForJob jobs apps raceApps jobId uid now newId =
        (⟨500, "Server error"⟩, apps ++ raceApps)) ∧
    (countPair (apps ++ raceApps) jobId uid ≤ 1 →
      countPair (applyForJob jobs apps raceApps jobId uid now newId).2
        jobId uid ≤ 1) := by
  refine ⟨?_, ?_, ?_⟩
  · intro hpre
    simp [applyForJob, hfind, hact, hdl, hpre]
  · intro hpre hrace
    have hw : hasApplication (apps ++ raceApps) jobId uid = true := by
      simp only [hasApplication, List.any_append, Bool.or_eq_true]
      exact Or.inr hrace
    simp [applyForJob, hfind, hact, hdl, hpre, hw]
  · intro huniq
    by_cases hpre : hasApplication apps jobId uid
    · simpa [applyForJob, hfind, hact, hdl, hpre] using huniq
    · by_cases hw : hasApplication (apps ++ raceApps) jobId uid
      · simpa [applyForJob, hfind, hact, hdl, hpre, hw] using huniq
      · have hnil : (apps ++ raceApps).filter
            (fun a => a.job == jobId && a.applicant == uid) = [] := by
          rw [List.filter_eq_nil_iff]
          intro a ha hpa
          exact absurd (List.any_eq_true.mpr ⟨a, ha, hpa⟩) hw
        have hfinal : applyForJob jobs apps raceApps jobId uid now newId =
            (⟨201, "Application submitted successfully"⟩,
             (apps ++ raceApps) ++ [⟨newId, jobId, uid, job.company⟩]) := by
          simp [applyForJob, hfind, hact, hdl, hpre, hw]
        rw [hfinal]
        simp only [countPair, List.filter_append, List.length_append, hnil]
        simp [List.filter]

/-- Witness for C6 (amended): on a concrete store where the pre-check sees
an existing application for the pair, the handler answers 400 'You have
already applied for this job' and leaves the collection unchanged. -/
theorem apply_amended_witness :
    applyForJob [⟨1, 10, true, 100⟩] [⟨5, 1, 2, 10⟩] [] 1 2 0 9 =
      (⟨400, "You have already applied for this job"⟩, [⟨5, 1, 2, 10⟩]) := by
  have h := (apply_amended [⟨1, 10, true, 100⟩] [⟨5, 1, 2, 10⟩] [] 1 2 0 9
    ⟨1, 10, true, 100⟩ (by decide) rfl (by decide)).1 (by decide)
  simpa using h

end JobPortal

namespace JobPortal

/-! ## Dashboard statistics (GET /api/admin/dashboard/stats)

The handler issues 26 queries.  Its await structure is: four sequential
`await Promise.all([...])` groups (overview counts; active counts; recent
lists; monthly counts), followed by six individually awaited aggregate
queries — so queries are concurrent only within a group, and a later
group is dispatched only after the earlier one has been awaited.  Every
query carries `.catch(() => 0)` (counts) or `.catch(() => [])` (lists and
aggregates), and the success response is assembled from the fallbacked
values. -/

inductive StatQ where
  | totalUsers | totalJobs | totalCompanies | totalApplications
  | totalCategories | totalFAQs | totalContent
  | activeUsers | activeJobs | activeCompanies | activeCategories
  | activeFAQs | publishedContent
  | recentUsers | recentJobs | recentApplications
  | monthlyUsers | monthlyJobs | monthlyApplications | monthlyCompanies
  | jobCategories | userRoles | applicationStatus | companyIndustries
  | faqCategories | contentTypes
deriving DecidableEq, Fintype

/-- The `countDocuments` queries of the stats handler. -/
def countQueries : List StatQ :=
  [.totalUsers, .totalJobs, .totalCompanies, .totalApplications,
   .totalCategories, .totalFAQs, .totalContent,
   .activeUsers, .activeJobs, .activeCompanies, .activeCategories,
   .activeFAQs, .publishedContent,
   .monthlyUsers, .monthlyJobs, .monthlyApplications, .monthlyCompanies]

/-- The handler's dispatch/await structure: each inner list is dispatched
together and awaited before the next list is dispatched (the four
`Promise.all` groups, then the six sequentially awaited aggregates). -/
def statsBatches : List (List StatQ) :=
  [[.totalUsers, .totalJobs, .totalCompanies, .totalApplications,
    .totalCategories, .totalFAQs, .totalContent],
   [.activeUsers, .activeJobs, .activeCompanies, .activeCategories,
    .activeFAQs, .publishedContent],
   [.recentUsers, .recentJobs, .recentApplications],
   [.monthlyUsers, .monthlyJobs, .monthlyApplications, .monthlyCompanies],
   [.jobCategories], [.userRoles], [.applicationStatus],
   [.companyIndustries], [.faqCategories], [.contentTypes]]

/-- Index of the dispatch group a query belongs to. -/
def phaseIdx (q : StatQ) : Nat :=
  statsBatches.findIdx (fun b => decide (q ∈ b))

/-- `.catch(() => 0)` on a count query. -/
def orZero (e : Except Unit Nat) : Nat :=
  match e with
  | .ok n => n
  | .error _ => 0

/-- `.catch(() => [])` on a list-producing query (documents or aggregate
buckets, abstracted to opaque ids). -/
def orNil (e : Except Unit (List Nat)) : List Nat :=
  match e with
  | .ok l => l
  | .error _ => []

structure StatsReport where
  totalUsers : Nat
  totalJobs : Nat
  totalCompanies : Nat
  totalApplications : Nat
  totalCategories : Nat
  totalFAQs : Nat
  totalContent : Nat
  activeUsers : Nat
  activeJobs : Nat
  activeCompanies : Nat
  activeCategories : Nat
  activeFAQs : Nat
  publishedContent : Nat
  recentUsers : List Nat
  recentJobs : List Nat
  recentApplications : List Nat
  monthlyUsers : Nat
  monthlyJobs : Nat
  monthlyApplications : Nat
  monthlyCompanies : Nat
  jobCategories : List Nat
  userRoles : List Nat
  applicationStatus : List Nat
  companyIndustries : List Nat
  faqCategories : List Nat
  contentTypes : List Nat
deriving DecidableEq

/-- The report value assembled from the per-query outcomes.  `envC q` is
the outcome of count query `q`; `envL q` the outcome of list/aggregate
query `q`; each field applies the query's own `.catch` fallback. -/
def theReport (envC : StatQ → Except Unit Nat)
    (envL : StatQ → Except Unit (List Nat)) : StatsReport :=
  ⟨orZero (envC .totalUsers), orZero (envC .totalJobs),
   orZero (envC .totalCompanies), orZero (envC .totalApplications),
   orZero (envC .totalCategories), orZero (envC .totalFAQs),
   orZero (envC .totalContent),
   orZero (envC .activeUsers), orZero (envC .activeJobs),
   orZero (envC .activeCompanies), orZero (envC .activeCategories),
   orZero (envC .activeFAQs), orZero (envC .publishedContent),
   orNil (envL .recentUsers), orNil (envL .recentJobs),
   orNil (envL .recentApplications),
   orZero (envC .monthlyUsers), orZero (envC .monthlyJobs),
   orZero (envC .monthlyApplications), orZero (envC .monthlyCompanies),
   orNil (envL .jobCategories), orNil (envL .userRoles),
   orNil (envL .applicationStatus), orNil (envL .companyIndustries),
   orNil (envL .faqCategories), orNil (envL .contentTypes)⟩

/-- The stats handler: every query is individually fallbacked, so the
handler always produces the success response. -/
def dashboardStats (envC : StatQ → Except Unit Nat)
    (envL : StatQ → Except Unit (List Nat)) : Except String StatsReport :=
  .ok (theReport envC envL)

/-- The report field fed by count query `q` (0 for list queries). -/
def reportCount (r : StatsReport) (q : StatQ) : Nat :=
  match q with
  | .totalUsers => r.totalUsers
  | .totalJobs => r.totalJobs
  | .totalCompanies => r.totalCompanies
  | .totalApplications => r.totalApplications
  | .totalCategories => r.totalCategories
  | .totalFAQs => r.totalFAQs
  | .totalContent => r.totalContent
  | .activeUsers => r.activeUsers
  | .activeJobs => r.activeJobs
  | .activeCompanies => r.activeCompanies
  | .activeCategories => r.activeCategories
  | .activeFAQs => r.activeFAQs
  | .publishedContent => r.publishedContent
  | .monthlyUsers => r.monthlyUsers
  | .monthlyJobs => r.monthlyJobs
  | .monthlyApplications => r.monthlyApplications
  | .monthlyCompanies => r.monthlyCompanies
  | _ => 0

/-- The report field fed by list/aggregate query `q` ([] for counts). -/
def reportListOf (r : StatsReport) (q : StatQ) : List Nat :=
  match q with
  | .recentUsers => r.recentUsers
  | .recentJobs => r.recentJobs
  | .recentApplications => r.recentApplications
  | .jobCategories => r.jobCategories
  | .userRoles => r.userRoles
  | .applicationStatus => r.applicationStatus
  | .companyIndustries => r.companyIndustries
  | .faqCategories => r.faqCategories
  | .contentTypes => r.contentTypes
  | _ => []

end JobPortal

namespace JobPortal

/-! ## C7: dashboard dispatch order and fault tolerance -/

/-- Counterexample for C7: the claim that every named count query is
dispatched before any is awaited fails — `totalUsers` is dispatched in
the first `Promise.all` group, which is awaited before the group
containing `activeUsers` is dispatched; they sit in different dispatch
groups (phases 0 and 1). -/
theorem dashboard_dispatch_counterexample :
    StatQ.totalUsers ∈ countQueries ∧ StatQ.activeUsers ∈ countQueries ∧
    phaseIdx StatQ.totalUsers = 0 ∧ phaseIdx StatQ.activeUsers = 1 := by
  refine ⟨?_, ?_, ?_, ?_⟩ <;> decide

/-- C7 (amended): the stats queries are dispatched in sequential groups
(four `Promise.all` groups, then six individually awaited aggregates) —
not all before any await — but each query is independently
fault-tolerant: the report is always returned successfully, a failed
count query degrades exactly its own field to 0, a failed list/aggregate
query degrades exactly its own field to [], and every field other than
the failed query's is unaffected (it matches a run in which that query
behaved arbitrarily differently). -/
theorem dashboard_stats_degrade (envC envC' : StatQ → Except Unit Nat)
    (envL envL' : StatQ → Except Unit (List Nat)) (q : StatQ)
    (hC : ∀ p, p ≠ q → envC p = envC' p)
    (hL : ∀ p, p ≠ q → envL p = envL' p) :
    dashboardStats envC envL = .ok (theReport envC envL) ∧
    (envC q = .error () → reportCount (theReport envC envL) q = 0) ∧
    (envL q = .error () → reportListOf (theReport envC envL) q = []) ∧
    (∀ p, p ≠ q →
      reportCount (theReport envC envL) p =
        reportCount (theReport envC' envL') p ∧
      reportListOf (theReport envC envL) p =
        reportListOf (theReport envC' envL') p) := by
  refine ⟨rfl, ?_, ?_, ?_⟩
  · intro hq
    cases q <;> simp [reportCount, theReport, orZero, hq]
  · intro hq
    cases q <;> simp [reportListOf, theReport, orNil, hq]
  · intro p hp
    have hc := hC p hp
    have hl := hL p hp
    cases p <;> simp [reportCount, reportListOf, theReport, hc, hl]

/-- Concrete failing environment: only `totalUsers` fails. -/
def envCFailTotalUsers : StatQ → Except Unit Nat :=
  fun p => if p = .totalUsers then .error () else .ok 5

/-- The same environment with `totalUsers` succeeding instead. -/
def envCOkAll : StatQ → Except Unit Nat := fun _ => .ok 5

/-- All list queries succeed with a one-element bucket list. -/
def envLOkAll : StatQ → Except Unit (List Nat) := fun _ => .ok [1]

/-- Witness for C7 (amended): with only the `totalUsers` count failing,
the report is still returned successfully, its `totalUsers` field is 0,
and its `activeUsers` field equals the one from the all-success run. -/
theorem dashboard_stats_degrade_witness :
    dashboardStats envCFailTotalUsers envLOkAll =
      .ok (theReport envCFailTotalUsers envLOkAll) ∧
    reportCount (theReport envCFailTotalUsers envLOkAll) StatQ.totalUsers
      = 0 ∧
    reportCount (theReport envCFailTotalUsers envLOkAll) StatQ.activeUsers
      = reportCount (theReport envCOkAll envLOkAll) StatQ.activeUsers := by
  have h := dashboard_stats_degrade envCFailTotalUsers envCOkAll
    envLOkAll envLOkAll StatQ.totalUsers
    (by intro p hp; simp [envCFailTotalUsers, envCOkAll, hp])
    (by intro p hp; rfl)
  exact ⟨h.1, h.2.1 rfl, (h.2.2.2 StatQ.activeUsers (by decide)).1⟩

end JobPortal

namespace JobPortal

/-! ## Bulk category update (PUT /api/admin/categories/bulk/update)

After express-validator, the handler computes
`invalidFields = Object.keys(updates).filter(f => !allowedFields.includes(f))`
with `allowedFields = ['isActive', 'isFeatured', 'sortOrder']`; a
non-empty `invalidFields` is answered with 400 and the message
`Invalid fields: ${invalidFields.join(', ')}` before `updateMany` is ever
dispatched; otherwise `updateMany({_id: {$in: ids}}, {$set: updates})`
runs. -/

def allowedCategoryFields : List String := ["isActive", "isFeatured", "sortOrder"]

/-- A JSON field value in the `updates` object. -/
inductive FieldVal where
  | b (v : Bool)
  | n (v : Nat)
deriving DecidableEq

/-- `Object.keys(updates).filter(f => !allowedFields.includes(f))`. -/
def invalidFieldsOf (updates : List (String × FieldVal)) : List String :=
  (updates.map Prod.fst).filter (fun f => !allowedCategoryFields.contains f)

/-- `$set` of one allowed update on a category document. -/
def applyCatUpdate (c : Category) (upd : String × FieldVal) : Category :=
  match upd with
  | ("isActive", .b v) => { c with isActive := v }
  | ("isFeatured", .b v) => { c with isFeatured := v }
  | ("sortOrder", .n v) => { c with sortOrder := v }
  | _ => c

/-- The bulk update handler: response and resulting collection. -/
def bulkUpdateCategories (store : List Category) (ids : List Nat)
    (updates : List (String × FieldVal)) : Resp × List Category :=
  let invalid := invalidFieldsOf updates
  if invalid.isEmpty then
    let store' := store.map (fun c =>
      if ids.contains c.id then updates.foldl applyCatUpdate c else c)
    let matched := (store.filter (fun c => ids.contains c.id)).length
    (⟨200, "Updated " ++ toString matched ++ " categories successfully"⟩,
     store')
  else
    (⟨400, "Invalid fields: " ++ String.intercalate ", " invalid⟩, store)

end JobPortal

namespace JobPortal

/-! ## C8: bulk update rejects disallowed fields without writing -/

/-- C8: a bulk update whose `updates` object holds at least one field
outside the allow-list is rejected with a 400 validation error whose
message is rendered from exactly the offending fields (which are exactly
the update keys outside the allow-list), and the collection is returned
unmodified — the bulk write is never dispatched. -/
theorem bulk_update_rejects_invalid (store : List Category)
    (ids : List Nat) (updates : List (String × FieldVal))
    (hbad : invalidFieldsOf updates ≠ []) :
    bulkUpdateCategories store ids updates =
      (⟨400, "Invalid fields: " ++
        String.intercalate ", " (invalidFieldsOf updates)⟩, store) ∧
    (∀ f, f ∈ invalidFieldsOf updates ↔
      f ∈ updates.map Prod.fst ∧ f ∉ allowedCategoryFields) := by
  constructor
  · have hne : (invalidFieldsOf updates).isEmpty = false := by
      cases hcase : invalidFieldsOf updates with
      | nil => exact absurd hcase hbad
      | cons a t => simp [hcase]
    simp [bulkUpdateCategories, hne]
  · intro f
    constructor
    · intro hf
      rcases List.mem_filter.mp hf with ⟨hmem, hc⟩
      rw [Bool.not_eq_true'] at hc
      refine ⟨hmem, fun hm => ?_⟩
      simp at hc
      exact hc hm
    · rintro ⟨hmem, hnm⟩
      refine List.mem_filter.mpr ⟨hmem, ?_⟩
      rw [Bool.not_eq_true']
      cases hc : allowedCategoryFields.contains f with
      | true => exact absurd (List.mem_of_elem_eq_true hc) hnm
      | false => rfl

/-- Witness for C8: submitting `{updates: {notAllowedField: 1}}` is
rejected with a message naming `notAllowedField`, and the stored
categories are untouched. -/
theorem bulk_update_rejects_invalid_witness :
    bulkUpdateCategories [⟨1, "a", true, false, 0⟩] [1]
      [("notAllowedField", FieldVal.n 1)] =
      (⟨400, "Invalid fields: notAllowedField"⟩, [⟨1, "a", true, false, 0⟩]) ∧
    "notAllowedField" ∈
      invalidFieldsOf [("notAllowedField", FieldVal.n 1)] := by
  have h := bulk_update_rejects_invalid [⟨1, "a", true, false, 0⟩] [1]
    [("notAllowedField", FieldVal.n 1)] (by decide)
  refine ⟨?_, (h.2 "notAllowedField").mpr ⟨by decide, by decide⟩⟩
  have h1 := h.1
  simpa using h1

end JobPortal

namespace JobPortal

/-! ## Password confinement

`protect` attaches `Admin.findById(decoded.id).select('-password')` — a
value of type `AdminView`, which has no password field — and the login
success body is built from an explicit field list (`loginBodyOf`) that
omits the password.  Hence neither output can depend on the stored hash:
formally, both are invariant under replacing every admin's password. -/

/-- Lookup by id in two stores that agree except on passwords returns
view-equal results. -/
theorem findById_viewEq {s₁ s₂ : List Admin}
    (hv : List.Forall₂ (fun a b => a.view = b.view) s₁ s₂) (i : Nat) :
    (findById s₁ i = none ∧ findById s₂ i = none) ∨
    ∃ a b, findById s₁ i = some a ∧ findById s₂ i = some b ∧
      a.view = b.view := by
  induction hv with
  | nil => exact Or.inl ⟨rfl, rfl⟩
  | cons hab htl ih =>
    rename_i a b t₁ t₂
    have hid : a.id = b.id := congrArg AdminView.id hab
    by_cases h : a.id = i
    · have hba : (a.id == i) = true := beq_iff_eq.mpr h
      have hbb : (b.id == i) = true := beq_iff_eq.mpr (hid ▸ h)
      exact Or.inr ⟨a, b, by simp [findById, List.find?, hba],
        by simp [findById, List.find?, hbb], hab⟩
    · have h₂ : ¬ b.id = i := fun hh => h (hid ▸ hh)
      have hba : (a.id == i) = false := beq_eq_false_iff_ne.mpr h
      have hbb : (b.id == i) = false := beq_eq_false_iff_ne.mpr h₂
      have e₁ : findById (a :: t₁) i = findById t₁ i := by
        simp [findById, List.find?, hba]
      have e₂ : findById (b :: t₂) i = findById t₂ i := by
        simp [findById, List.find?, hbb]
      rw [e₁, e₂]
      exact ih

/-- Lookup by email in two stores that agree except on passwords returns
view-equal results. -/
theorem findOneByEmail_viewEq {s₁ s₂ : List Admin}
    (hv : List.Forall₂ (fun a b => a.view = b.view) s₁ s₂) (e : String) :
    (findOneByEmail s₁ e = none ∧ findOneByEmail s₂ e = none) ∨
    ∃ a b, findOneByEmail s₁ e = some a ∧ findOneByEmail s₂ e = some b ∧
      a.view = b.view := by
  induction hv with
  | nil => exact Or.inl ⟨rfl, rfl⟩
  | cons hab htl ih =>
    rename_i a b t₁ t₂
    have hem : a.email = b.email := congrArg AdminView.email hab
    by_cases h : a.email = lowerString e
    · have hba : (a.email == lowerString e) = true := beq_iff_eq.mpr h
      have hbb : (b.email == lowerString e) = true := beq_iff_eq.mpr (hem ▸ h)
      exact Or.inr ⟨a, b, by simp [findOneByEmail, List.find?, hba],
        by simp [findOneByEmail, List.find?, hbb], hab⟩
    · have h₂ : ¬ b.email = lowerString e := fun hh => h (hem ▸ hh)
      have hba : (a.email == lowerString e) = false := beq_eq_false_iff_ne.mpr h
      have hbb : (b.email == lowerString e) = false :=
        beq_eq_false_iff_ne.mpr h₂
      have e₁ : findOneByEmail (a :: t₁) e = findOneByEmail t₁ e := by
        simp [findOneByEmail, List.find?, hba]
      have e₂ : findOneByEmail (b :: t₂) e = findOneByEmail t₂ e := by
        simp [findOneByEmail, List.find?, hbb]
      rw [e₁, e₂]
      exact ih

end JobPortal

namespace JobPortal

/-! ## C10: the stored hash never reaches authentication output -/

/-- C10: the authentication layer's outputs are independent of stored
password hashes.  For two stores whose admins agree on every field except
`password` (view-equal, i.e. identical after `.select('-password')`):
the `protect` middleware behaves identically on every request, and
whenever login succeeds against both stores (under each store's own hash
comparison), the issued token and the response body — built from the
explicit password-free field list — are identical. -/
theorem password_confinement (s₁ s₂ : List Admin)
    (hv : List.Forall₂ (fun a b => a.view = b.view) s₁ s₂) :
    (∀ h secret now, protect h secret now s₁ = protect h secret now s₂) ∧
    (∀ bcmp₁ bcmp₂ e pw now tok₁ body₁ st₁ tok₂ body₂ st₂,
      login s₁ bcmp₁ e pw now = (.authenticated tok₁ body₁, st₁) →
      login s₂ bcmp₂ e pw now = (.authenticated tok₂ body₂, st₂) →
      tok₁ = tok₂ ∧ body₁ = body₂) := by
  constructor
  · intro h secret now
    cases h with
    | missing => rfl
    | bearerEmpty => rfl
    | bearer t =>
      rcases hw : jwtVerify t secret now with err | oid
      · cases err <;> simp [protect, hw]
      · cases oid with
        | none => simp [protect, hw]
        | some i =>
          rcases findById_viewEq hv i with ⟨hn₁, hn₂⟩ | ⟨a, b, hfa, hfb, hab⟩
          · simp [protect, hw, hn₁, hn₂]
          · have hac : a.isActive = b.isActive :=
              congrArg AdminView.isActive hab
            simp [protect, hw, hfa, hfb, hab, hac]
  · intro bcmp₁ bcmp₂ e pw now tok₁ body₁ st₁ tok₂ body₂ st₂ h1 h2
    rcases findOneByEmail_viewEq hv e with ⟨hn₁, hn₂⟩ | ⟨a, b, hfa, hfb, hab⟩
    · rw [login, hn₁] at h1
      simp at h1
    · have hid : a.id = b.id := congrArg AdminView.id hab
      rw [login, hfa] at h1
      rw [login, hfb] at h2
      by_cases ha : a.isActive
      · by_cases hc₁ : bcmp₁ a.password pw
        · have hac : a.isActive = b.isActive :=
            congrArg AdminView.isActive hab
          have hb : b.isActive = true := by rw [← hac]; exact ha
          by_cases hc₂ : bcmp₂ b.password pw
          · simp only [ha, hc₁, Bool.not_true, Bool.false_eq_true,
              if_false, Prod.mk.injEq, LoginResult.authenticated.injEq]
              at h1
            simp only [hb, hc₂, Bool.not_true, Bool.false_eq_true,
              if_false, Prod.mk.injEq, LoginResult.authenticated.injEq]
              at h2
            refine ⟨?_, ?_⟩
            · rw [← h1.1.1, ← h2.1.1, hid]
            · rw [← h1.1.2, ← h2.1.2, hab]
          · simp [hb, hc₂] at h2
        · simp [ha, hc₁] at h1
      · simp [ha] at h1

/-- Witness for C10: two concrete one-admin stores differing only in the
stored hash, each with a comparator accepting its own hash: `protect`
answers identically and the two successful login outputs coincide. -/
theorem password_confinement_witness :
    protect (Header.bearer (generateToken 7 0)) jwtSecret 3
      [⟨7, "A", "B", "a@b.com", "hash-one", "admin", [], true, none, none⟩] =
    protect (Header.bearer (generateToken 7 0)) jwtSecret 3
      [⟨7, "A", "B", "a@b.com", "hash-two", "admin", [], true, none, none⟩] ∧
    ∀ tok₁ body₁ st₁ tok₂ body₂ st₂,
      login [⟨7, "A", "B", "a@b.com", "hash-one", "admin", [], true, none,
        none⟩] (fun h _ => h == "hash-one") "a@b.com" "pw" 0 =
        (.authenticated tok₁ body₁, st₁) →
      login [⟨7, "A", "B", "a@b.com", "hash-two", "admin", [], true, none,
        none⟩] (fun h _ => h == "hash-two") "a@b.com" "pw" 0 =
        (.authenticated tok₂ body₂, st₂) →
      tok₁ = tok₂ ∧ body₁ = body₂ := by
  have h := password_confinement
    [⟨7, "A", "B", "a@b.com", "hash-one", "admin", [], true, none, none⟩]
    [⟨7, "A", "B", "a@b.com", "hash-two", "admin", [], true, none, none⟩]
    (List.Forall₂.cons (by decide) List.Forall₂.nil)
  exact ⟨h.1 _ _ _, fun tok₁ body₁ st₁ tok₂ body₂ st₂ h1 h2 =>
    h.2 _ _ _ _ _ tok₁ body₁ st₁ tok₂ body₂ st₂ h1 h2⟩

end JobPortal
